import Mathlib

set_option maxRecDepth 100000

/-!
Verification development for the API documentation crawler
(`crawl_all.py`) and its corpus-loading collaborator (`gemini_docs.py`).

The Python code is shallowly embedded: pure helpers become Lean
functions, the recursive `APIDocCrawler.crawl` traversal becomes a
fuel-indexed recursion over an explicit `CrawlState`, and the external
libraries (`urllib.parse`, BeautifulSoup, html2text, `json`) are
modelled at the level of the behaviour the crawler observes, as
documented on each definition.  All definitions are executable so that
concrete crawl scenarios evaluate inside the kernel.
-/

/-! ## String helpers (kernel-reducible models of the Python `str` API) -/

/-- Model of the Python substring test `pat in s`, on character lists. -/
def listHasSub (pat : List Char) : List Char → Bool
  | [] => pat.isEmpty
  | c :: rest => pat.isPrefixOf (c :: rest) || listHasSub pat rest

/-- Model of the Python substring test `pat in s` on strings. -/
def containsStr (s pat : String) : Bool := listHasSub pat.data s.data

/-- Model of Python `s.startswith(pre)`. -/
def strStartsWith (s pre : String) : Bool := pre.data.isPrefixOf s.data

/-- Split a character list on a separator character; like Python
`str.split(sep)`, the empty list yields one empty chunk. -/
def chSplit (sep : Char) : List Char → List (List Char)
  | [] => [[]]
  | c :: rest =>
    let r := chSplit sep rest
    if c = sep then [] :: r
    else
      match r with
      | [] => [[c]]
      | h :: t => (c :: h) :: t

/-- Model of Python `s.split(sep)` for a one-character separator. -/
def strSplitChar (s : String) (sep : Char) : List String :=
  (chSplit sep s.data).map String.mk

/-- Whitespace characters removed by Python `str.strip()`. -/
def isPySpace (c : Char) : Bool :=
  c = ' ' || c = '\t' || c = '\n' || c = '\r' || c = '\x0b' || c = '\x0c'

/-- Model of Python `s.strip()`. -/
def pyStrip (s : String) : String :=
  String.mk (((s.data.dropWhile isPySpace).reverse.dropWhile isPySpace).reverse)

/-- Model of Python `sep.join(parts)`. -/
def joinWith (sep : String) : List String → String
  | [] => ""
  | [a] => a
  | a :: rest => a ++ sep ++ joinWith sep rest

/-! ## Model of `urllib.parse.urlparse` / `urljoin`

The crawler resolves and splits URLs with `urllib.parse`.  The model
below follows the CPython implementation of `urlsplit` / `urljoin` for
ordinary hierarchical (http/https-style) URLs: scheme detection, `//`
netloc, first-`#` fragment split, first-`?` query split, and the
segment-merging algorithm of `urljoin` including `.`/`..` resolution.
Parameters after `;` (the `params` component) are not modelled; none of
the URLs the crawler manipulates use them. -/

structure UrlParts where
  scheme : String
  netloc : String
  path : String
  query : String
  fragment : String
deriving DecidableEq

/-- Characters allowed in a URL scheme after the first (CPython
`scheme_chars`). -/
def isSchemeChar (c : Char) : Bool := c.isAlphanum || c = '+' || c = '-' || c = '.'

/-- Scan scheme characters up to a `:` separator. -/
def schemeSplitGo (acc : List Char) : List Char → Option (List Char × List Char)
  | [] => none
  | c :: rest =>
    if c = ':' then some (acc.reverse, rest)
    else if isSchemeChar c then schemeSplitGo (c :: acc) rest
    else none

/-- Split a leading `scheme:` off a URL, if present: the first character
must be a letter and everything before the first `:` a scheme
character, as in CPython `urlsplit`. -/
def schemeSplit : List Char → Option (List Char × List Char)
  | [] => none
  | c :: rest => if c.isAlpha then schemeSplitGo [c] rest else none

/-- Take the netloc: characters up to the first `/`, `?` or `#`. -/
def takeNetloc : List Char → List Char × List Char
  | [] => ([], [])
  | c :: rest =>
    if c = '/' || c = '?' || c = '#' then ([], c :: rest)
    else
      let p := takeNetloc rest
      (c :: p.1, p.2)

/-- Split a character list at the first occurrence of `sep`; the second
component is `none` when `sep` does not occur. -/
def splitAtChar (sep : Char) : List Char → List Char × Option (List Char)
  | [] => ([], none)
  | c :: rest =>
    if c = sep then ([], some rest)
    else
      let p := splitAtChar sep rest
      (c :: p.1, p.2)

/-- Model of `urllib.parse.urlparse` on character lists. -/
def urlparseL (l : List Char) : UrlParts :=
  let sr := match schemeSplit l with
    | some (sc, r) => (sc.map Char.toLower, r)
    | none => ([], l)
  let nr := match sr.2 with
    | '/' :: '/' :: r => takeNetloc r
    | r => ([], r)
  let bf := splitAtChar '#' nr.2
  let pq := splitAtChar '?' bf.1
  { scheme := String.mk sr.1, netloc := String.mk nr.1,
    path := String.mk pq.1, query := String.mk (pq.2.getD []),
    fragment := String.mk (bf.2.getD []) }

/-- Model of `urllib.parse.urlparse`. -/
def urlparse (s : String) : UrlParts := urlparseL s.data

/-- Model of `urllib.parse.urlunsplit`: reassemble URL components. -/
def unparse (u : UrlParts) : String :=
  let url := u.path
  let url :=
    if u.netloc ≠ "" || strStartsWith url "//" then
      (if url ≠ "" && !strStartsWith url "/" then "//" ++ u.netloc ++ "/" ++ url
       else "//" ++ u.netloc ++ url)
    else url
  let url := if u.scheme ≠ "" then u.scheme ++ ":" ++ url else url
  let url := if u.query ≠ "" then url ++ "?" ++ u.query else url
  if u.fragment ≠ "" then url ++ "#" ++ u.fragment else url

/-- Base-path directory segments: CPython `urljoin` drops the final
segment of the base path when it is not empty (it names a file, not a
directory). -/
def baseDirParts (bpath : String) : List String :=
  let parts := strSplitChar bpath '/'
  if parts.getLast? = some "" then parts else parts.dropLast

/-- Drop empty segments from the tail of a merged segment list while
keeping its final element, as CPython `urljoin` filters
`segments[1:-1]`. -/
def filterMiddleTail : List String → List String
  | [] => []
  | [b] => [b]
  | b :: rest => if b = "" then filterMiddleTail rest else b :: filterMiddleTail rest

/-- Keep the first and last elements, dropping empty segments in
between (CPython `segments[1:-1] = filter(None, segments[1:-1])`). -/
def filterMiddle : List String → List String
  | [] => []
  | [a] => [a]
  | a :: rest => a :: filterMiddleTail rest

/-- Resolve `.` and `..` segments left to right; popping an empty stack
is a no-op, matching the caught `IndexError` in CPython. -/
def resolveSegs (segs : List String) : List String :=
  segs.foldl (fun acc seg =>
    if seg = ".." then acc.dropLast
    else if seg = "." then acc
    else acc ++ [seg]) []

/-- Path merging of CPython `urljoin`: absolute reference paths replace
the base path, relative ones are appended to the base directory, and
dot segments are resolved. -/
def joinPaths (bpath upath : String) : String :=
  let segs :=
    if strStartsWith upath "/" then strSplitChar upath '/'
    else filterMiddle (baseDirParts bpath ++ strSplitChar upath '/')
  let res := resolveSegs segs
  let res := if segs.getLast? = some "." || segs.getLast? = some ".." then res ++ [""] else res
  let p := joinWith "/" res
  if p = "" then "/" else p

/-- Model of `urllib.parse.urljoin` for hierarchical URLs: the
reference inherits the base scheme when it has none, references with a
different scheme or with their own netloc stand alone, an empty
reference path keeps the base path, and otherwise paths are merged with
`joinPaths`. -/
def urljoin (base url : String) : String :=
  if base = "" then url
  else if url = "" then base
  else
    let b := urlparse base
    let u := urlparse url
    let uscheme := if u.scheme = "" then b.scheme else u.scheme
    if uscheme ≠ b.scheme then url
    else if u.netloc ≠ "" then unparse { u with scheme := uscheme }
    else if u.path = "" then
      unparse { b with
                query := (if u.query = "" then b.query else u.query),
                fragment := u.fragment }
    else
      unparse { scheme := b.scheme
                netloc := b.netloc
                path := joinPaths b.path u.path
                query := u.query
                fragment := u.fragment }

/-! ## Crawler configuration and the Link Classifier -/

/-- Model of the `APIDocCrawler` configuration fields that affect the
crawl logic.  `path_regex` models the compiled `re.compile(path_pattern)`
matcher as a predicate in the semantics of `regex.match` (anchored at
the beginning of the path, truthy result); it is `none` when no
`path_pattern` is configured.  Operational fields with no effect on the
collected state (`output_file`, `delay`, `use_selenium`, `wait_time`,
`headers`) are omitted; `use_selenium` appears separately in the model
of `run`. -/
structure Config where
  base_url : String
  start_path : String
  additional_paths : List String
  path_regex : Option (String → Bool)
  selector : String
  max_pages : Option Nat

/-- Path acceptance of `is_valid_link`: the resolved path starts with
the start path or with one of the additional paths
(`starts_with_valid_path` in the source). -/
def scopePath (cfg : Config) (path : String) : Bool :=
  strStartsWith path cfg.start_path
    || cfg.additional_paths.any (fun p => strStartsWith path p)

/-- Model of `APIDocCrawler.is_valid_link`: reject empty hrefs,
fragment-only hrefs, hrefs containing `mailto:` or `javascript:`; then
resolve against `base_url`, require the same netloc as `base_url`, a
path in scope, and, when a pattern is configured, a match against it. -/
def is_valid_link (cfg : Config) (href : String) : Bool :=
  if href = "" then false
  else if strStartsWith href "#" then false
  else if containsStr href "mailto:" || containsStr href "javascript:" then false
  else if (urlparse (urljoin cfg.base_url href)).netloc ≠ (urlparse cfg.base_url).netloc then false
  else
    match cfg.path_regex with
    | some rx =>
      scopePath cfg (urlparse (urljoin cfg.base_url href)).path
        && rx (urlparse (urljoin cfg.base_url href)).path
    | none => scopePath cfg (urlparse (urljoin cfg.base_url href)).path

/-! ## The parsed page and the outside world

BeautifulSoup, html2text and the network are external to the crawler.
A fetched and parsed page is modelled by the features the crawler
reads from the soup; the world maps URLs to such pages. -/

/-- Observable features of a parsed page (`BeautifulSoup(html)`).
`select` maps a CSS selector to `str(element)` of the first matching
element (`soup.select_one`), as an association list: no entry means no
match.  `body` is `str(soup.body)` (`none` when there is no body),
`title` the string of the `title` tag, `metaDesc` the `content`
attribute of `meta name=description` when present, and `hrefs` the
`href` attributes of all `a` tags with an `href`, in document order. -/
structure Soup where
  select : List (String × String)
  body : Option String
  title : Option String
  metaDesc : Option String
  hrefs : List String
deriving DecidableEq

/-- The environment of a crawl: `fetch` models
`get_page_content` followed by parsing (`none` covers a failed fetch or
falsy page text, where `crawl` returns), and `convert` models
`self.converter.handle` (html2text). -/
structure World where
  fetch : String → Option Soup
  convert : String → String

/-- A corpus record as appended by `crawl` to `self.docs`. -/
structure Doc where
  url : String
  title : String
  description : String
  content : String
deriving DecidableEq

/-- Mutable crawler state: `visited` models the `self.visited` set (as
the list of its elements, most recent first), `docs` the corpus in
insertion order, `page_count` the page counter.  `fetched` is a ghost
field recording each URL passed to `get_page_content`, in call order;
the Python object has no such field, it only witnesses fetch events. -/
structure CrawlState where
  visited : List String
  docs : List Doc
  page_count : Nat
  fetched : List String
deriving DecidableEq

/-- The selector list: `self.content_selector.split(',')`, each entry
stripped (stripping happens once per loop iteration in the source). -/
def selectorList (cfg : Config) : List String :=
  (strSplitChar cfg.selector ',').map pyStrip

/-- Content-region resolution in `crawl`: the first configured selector
with a match wins, otherwise `soup.body`. -/
def resolveContent (cfg : Config) (soup : Soup) : Option String :=
  match (selectorList cfg).findSome? (fun sel => soup.select.lookup sel) with
  | some c => some c
  | none => soup.body

/-- The extraction-skip test of `crawl`: content region missing, or
`len(str(content).strip()) < 100`. -/
def sparseContent (cfg : Config) (soup : Soup) : Bool :=
  match resolveContent cfg soup with
  | none => true
  | some c => (pyStrip c).data.length < 100

/-- Title resolution: `soup.title.string.strip() if soup.title else url`. -/
def titleOf (soup : Soup) (url : String) : String :=
  match soup.title with
  | some t => pyStrip t
  | none => url

/-- The document built by `crawl` for a page whose content region `c`
passed the sparseness check. -/
def docOf (w : World) (soup : Soup) (url c : String) : Doc :=
  { url := url
    title := titleOf soup url
    description := soup.metaDesc.getD ""
    content := w.convert c }

/-- Model of `APIDocCrawler.extract_links`: filter hrefs through
`is_valid_link`, resolve each against the page URL, and append it
unless already collected or already visited. -/
def extract_links (cfg : Config) (soup : Soup) (base_url : String)
    (visited : List String) : List String :=
  soup.hrefs.foldl (fun links href =>
    if is_valid_link cfg href then
      let full_url := urljoin base_url href
      if full_url ∉ links ∧ full_url ∉ visited then links ++ [full_url] else links
    else links) []

/-- The page-budget test `self.max_pages is not None and
self.page_count >= self.max_pages`. -/
def budgetReached (cfg : Config) (st : CrawlState) : Bool :=
  match cfg.max_pages with
  | some n => decide (n ≤ st.page_count)
  | none => false

/-- Mark a URL visited, bump the page counter, and record the fetch
attempt that immediately follows in `crawl`. -/
def markFetched (url : String) (st : CrawlState) : CrawlState :=
  { st with
    visited := url :: st.visited
    page_count := st.page_count + 1
    fetched := st.fetched ++ [url] }

/-- The fetch/extract part of one `crawl` call, after the URL has been
marked visited: returns the updated state and the links to recurse on.
A failed fetch, a missing content region, and a sparse content region
all make `crawl` return before link extraction, hence yield no links. -/
def processPage (cfg : Config) (w : World) (url : String) (st : CrawlState) :
    CrawlState × List String :=
  match w.fetch url with
  | none => (st, [])
  | some soup =>
    match resolveContent cfg soup with
    | none => (st, [])
    | some c =>
      if (pyStrip c).data.length < 100 then (st, [])
      else
        let st2 := { st with docs := st.docs ++ [docOf w soup url c] }
        (st2, extract_links cfg soup url st2.visited)

/-- Work items of the traversal: `visit url` is a call of
`APIDocCrawler.crawl(url)`; `expand links` is the `for link in links`
loop at the end of a `crawl` call. -/
inductive CrawlTask where
  | visit (url : String)
  | expand (links : List String)

/-- Fuel-indexed model of the recursive `APIDocCrawler.crawl`.  One
`visit` step checks the visited set, then the page budget, marks the
URL visited, fetches and extracts, and expands the discovered links;
`expand` models the recursion loop, whose budget check `break`s out
dropping the remaining links.  The fuel only bounds recursion depth
(Python relies on the call stack); every claim below is either proved
for all fuel values or evaluated at an amply large one. -/
def crawlAux (cfg : Config) (w : World) : Nat → CrawlTask → CrawlState → CrawlState
  | 0, _, st => st
  | Nat.succ fuel, CrawlTask.visit url, st =>
    if url ∈ st.visited then st
    else if budgetReached cfg st then st
    else
      let p := processPage cfg w url (markFetched url st)
      crawlAux cfg w fuel (CrawlTask.expand p.2) p.1
  | Nat.succ _, CrawlTask.expand [], st => st
  | Nat.succ fuel, CrawlTask.expand (link :: rest), st =>
    if budgetReached cfg st then st
    else crawlAux cfg w fuel (CrawlTask.expand rest) (crawlAux cfg w fuel (CrawlTask.visit link) st)

/-- The state at the start of `run`: fresh visited set, empty corpus,
zero page count. -/
def initState : CrawlState :=
  { visited := [], docs := [], page_count := 0, fetched := [] }

/-- Model of the traversal part of `APIDocCrawler.run`: crawl the start
URL (`urljoin(base_url, start_path)`, computed in `__init__`), then
each additional path not yet visited. -/
def runCrawl (cfg : Config) (w : World) (fuel : Nat) : CrawlState :=
  let st1 := crawlAux cfg w fuel (CrawlTask.visit (urljoin cfg.base_url cfg.start_path)) initState
  cfg.additional_paths.foldl (fun st path =>
    let additional_url := urljoin cfg.base_url path
    if additional_url ∈ st.visited then st
    else crawlAux cfg w fuel (CrawlTask.visit additional_url) st) st1

/-! ## Concrete scenarios used by the scenario claims -/

/-- Configuration with origin `https://example.com` and start path
`/docs/`: the scenario configuration of the spec. -/
def cfgDocs : Config :=
  { base_url := "https://example.com"
    start_path := "/docs/"
    additional_paths := []
    path_regex := none
    selector := "main"
    max_pages := none }

/-- A content region comfortably above the 100-character threshold. -/
def longText : String := String.mk (List.replicate 120 'x')

/-- A content region below the 100-character threshold. -/
def shortText : String := "too short"

/-- Page body for the DFS scenario: page A links to B then C, B links
to D, C and D link nowhere. -/
def soupA : Soup :=
  { select := [("main", longText)], body := none, title := some "A"
    metaDesc := none, hrefs := ["/docs/b", "/docs/c"] }

/-- Page B of the DFS scenario. -/
def soupB : Soup :=
  { select := [("main", longText)], body := none, title := some "B"
    metaDesc := none, hrefs := ["/docs/d"] }

/-- Page C of the DFS scenario. -/
def soupC : Soup :=
  { select := [("main", longText)], body := none, title := some "C"
    metaDesc := none, hrefs := [] }

/-- Page D of the DFS scenario. -/
def soupD : Soup :=
  { select := [("main", longText)], body := none, title := some "D"
    metaDesc := none, hrefs := [] }

/-- World for the DFS-order scenario. -/
def wDFS : World :=
  { fetch := fun u =>
      if u = "https://example.com/docs/" then some soupA
      else if u = "https://example.com/docs/b" then some soupB
      else if u = "https://example.com/docs/c" then some soupC
      else if u = "https://example.com/docs/d" then some soupD
      else none
    convert := id }

/-- Start page whose content region is sparse but which carries an
in-scope link. -/
def soupSparse : Soup :=
  { select := [("main", shortText)], body := none, title := some "Sparse"
    metaDesc := none, hrefs := ["/docs/a"] }

/-- A page with rich content and no links. -/
def soupRich : Soup :=
  { select := [("main", longText)], body := none, title := some "Rich"
    metaDesc := none, hrefs := [] }

/-- World for the sparse-content scenario: the start page is sparse,
the linked page would succeed. -/
def wSparse : World :=
  { fetch := fun u =>
      if u = "https://example.com/docs/" then some soupSparse
      else if u = "https://example.com/docs/a" then some soupRich
      else none
    convert := id }

/-- The five-link page of the Link Classifier scenario. -/
def soupFive : Soup :=
  { select := [("main", longText)], body := none, title := some "Five"
    metaDesc := none
    hrefs := ["/docs/a", "/docs/b", "#section", "mailto:x@y.com", "/other/c"] }

/-- A page carrying a single relative (not root-anchored) href. -/
def soupRel : Soup :=
  { select := [("main", longText)], body := none, title := some "Rel"
    metaDesc := none, hrefs := ["docs/x"] }

/-- A world with no pages at all. -/
def wEmpty : World := { fetch := fun _ => none, convert := id }

/-! ## The Corpus Writer and the loading collaborator

`run` persists the corpus with `json.dump(self.docs, f, indent=2,
ensure_ascii=False)` and `DocsRepository.load_data` reads it back with
`json.load`.  Both are Python standard-library functions; they are
modelled in two layers.  The value layer (`Json`, `dumpDocs`,
`loadRecords`) captures the JSON value written and the dictionary
accesses the loading side performs.  The text layer (`pyJsonQuote`,
`pyJsonUnquote`) models the JSON string-literal encoding that
`ensure_ascii=False` selects — only `"`, `\` and control characters
are escaped, everything else (all non-ASCII text included) is written
literally — together with the string scanner of `json.load`. -/

/-- JSON values as far as the corpus artifact needs them. -/
inductive Json where
  | str : String → Json
  | arr : List Json → Json
  | obj : List (String × Json) → Json

/-- The JSON object `json.dump` writes for one corpus record, field
order as in the dict literal of `crawl`. -/
def docJson (d : Doc) : Json :=
  Json.obj [("url", Json.str d.url), ("title", Json.str d.title),
            ("description", Json.str d.description), ("content", Json.str d.content)]

/-- The JSON value of the whole output artifact: the ordered corpus. -/
def dumpDocs (docs : List Doc) : Json := Json.arr (docs.map docJson)

/-- Dictionary access `doc.get(key)` on a loaded JSON value. -/
def jGet (j : Json) (key : String) : Option Json :=
  match j with
  | Json.obj fields => fields.lookup key
  | _ => none

/-- The `url`/`title`/`content` triple the serving layer reads from one
loaded record. -/
def recordOf (j : Json) : Option (String × String × String) :=
  match jGet j "url", jGet j "title", jGet j "content" with
  | some (Json.str u), some (Json.str t), some (Json.str c) => some (u, t, c)
  | _, _, _ => none

/-- Read every record of a loaded array; any malformed record fails the
load. -/
def recordsOf : List Json → Option (List (String × String × String))
  | [] => some []
  | j :: rest =>
    match recordOf j, recordsOf rest with
    | some r, some rs => some (r :: rs)
    | _, _ => none

/-- Reloading the artifact through the document-loading collaborator:
`json.load` yields the value, and the serving layer reads the
`url`/`title`/`content` fields of each record. -/
def loadRecords (j : Json) : Option (List (String × String × String)) :=
  match j with
  | Json.arr items => recordsOf items
  | _ => none

/-- Lowercase hexadecimal digit, as Python `'%x'` formatting. -/
def hexDigitChar (n : Nat) : Char :=
  if n < 10 then Char.ofNat (48 + n) else Char.ofNat (87 + n)

/-- Escape of one character in a JSON string literal written with
`ensure_ascii=False` (CPython `py_encode_basestring`): backslash,
quote, the five shorthand escapes, `backslash-u00xx` for the remaining control
characters, and every other character — non-ASCII included —
unchanged. -/
def escCharL (c : Char) : List Char :=
  if c = '\\' then ['\\', '\\']
  else if c = '"' then ['\\', '"']
  else if c = '\x08' then ['\\', 'b']
  else if c = '\x0c' then ['\\', 'f']
  else if c = '\n' then ['\\', 'n']
  else if c = '\r' then ['\\', 'r']
  else if c = '\t' then ['\\', 't']
  else if c.toNat < 0x20 then
    ['\\', 'u', '0', '0', hexDigitChar (c.toNat / 16), hexDigitChar (c.toNat % 16)]
  else [c]

/-- Escape a whole character sequence. -/
def escapeList : List Char → List Char
  | [] => []
  | c :: rest => escCharL c ++ escapeList rest

/-- A JSON string literal as `json.dump(..., ensure_ascii=False)`
writes it. -/
def pyJsonQuote (s : String) : String :=
  String.mk ('"' :: (escapeList s.data ++ ['"']))

/-- Value of a hexadecimal digit character, if any. -/
def hexDigitVal (c : Char) : Option Nat :=
  if '0' ≤ c ∧ c ≤ '9' then some (c.toNat - 48)
  else if 'a' ≤ c ∧ c ≤ 'f' then some (c.toNat - 87)
  else if 'A' ≤ c ∧ c ≤ 'F' then some (c.toNat - 55)
  else none

/-- The single-character escapes accepted by the `json.load` string
scanner (CPython `py_scanstring` `BACKSLASH` table). -/
def unescCharOf (c : Char) : Option Char :=
  if c = '"' then some '"'
  else if c = '\\' then some '\\'
  else if c = '/' then some '/'
  else if c = 'b' then some '\x08'
  else if c = 'f' then some '\x0c'
  else if c = 'n' then some '\n'
  else if c = 'r' then some '\r'
  else if c = 't' then some '\t'
  else none

/-- The string scanner of `json.load` (strict mode): consume characters
up to the closing quote, rejecting raw control characters, decoding
backslash escapes and 4-digit `backslash-u` escapes; returns the decoded
characters and the input remaining after the closing quote.
(Surrogate-pair recombination is not modelled; the writer never emits
surrogate escapes.) -/
def scanStringL : List Char → Option (List Char × List Char)
  | [] => none
  | c :: rest =>
    if c = '"' then some ([], rest)
    else if c.toNat < 0x20 then none
    else if c = '\\' then
      match rest with
      | [] => none
      | e :: rest2 =>
        if e = 'u' then
          match rest2 with
          | a :: b :: c2 :: d :: rest3 =>
            match hexDigitVal a, hexDigitVal b, hexDigitVal c2, hexDigitVal d with
            | some x, some y, some z, some t2 =>
              match scanStringL rest3 with
              | some (s, r) => some (Char.ofNat (((x * 16 + y) * 16 + z) * 16 + t2) :: s, r)
              | none => none
            | _, _, _, _ => none
          | _ => none
        else
          match unescCharOf e with
          | some ce =>
            match scanStringL rest2 with
            | some (s, r) => some (ce :: s, r)
            | none => none
          | none => none
    else
      match scanStringL rest with
      | some (s, r) => some (c :: s, r)
      | none => none

/-- Parse one complete JSON string literal. -/
def pyJsonUnquote (s : String) : Option String :=
  match s.data with
  | '"' :: rest =>
    match scanStringL rest with
    | some (content, []) => some (String.mk content)
    | _ => none
  | _ => none

/-! ## The control structure of `APIDocCrawler.run`

`run` calls `setup_selenium()` before its `try` block; the `try` body
runs the crawl and then the corpus write; the `finally` clause quits
the driver when one exists.  The model abstracts the two places an
exception can enter — engine setup (`webdriver.Chrome` raising) and the
crawl itself (anything that escapes `crawl`, whose per-URL fetch errors
are caught but which the spec still considers fallible) — as booleans,
and records which effects occur. -/

/-- Observable effects of one `run` invocation. -/
structure RunTrace where
  written : Bool
  driverQuit : Bool
  raised : Bool
  output : Option Json

/-- Model of `APIDocCrawler.run`: the engine is set up before the
`try`, so a setup failure skips crawl, writer and teardown; a crawl
failure reaches the `finally` teardown but never the writer, which sits
after the crawl inside the `try`; otherwise the writer runs once with
the full ordered corpus. -/
def runTrace (useSelenium setupRaises crawlRaises : Bool) (docs : List Doc) : RunTrace :=
  if useSelenium && setupRaises then
    { written := false, driverQuit := false, raised := true, output := none }
  else if crawlRaises then
    { written := false, driverQuit := useSelenium, raised := true, output := none }
  else
    { written := true, driverQuit := useSelenium, raised := false, output := some (dumpDocs docs) }

/-- The scenario configuration with a page budget of one. -/
def cfgBudget : Config := { cfgDocs with max_pages := some 1 }

/-- A sample corpus record. -/
def docExample : Doc := { url := "u", title := "t", description := "", content := "c" }

/-- State invariant maintained by the whole traversal: every fetched
URL is visited and fetched at most once, corpus URLs are distinct and
visited, the corpus is no longer than the fetch log, the fetch log no
longer than the page counter, and the page counter never exceeds a
configured budget. -/
def Good (cfg : Config) (st : CrawlState) : Prop :=
  st.fetched.Nodup ∧
  (st.docs.map Doc.url).Nodup ∧
  (∀ u ∈ st.fetched, u ∈ st.visited) ∧
  (∀ u ∈ st.docs.map Doc.url, u ∈ st.visited) ∧
  st.docs.length ≤ st.fetched.length ∧
  st.fetched.length ≤ st.page_count ∧
  (∀ N, cfg.max_pages = some N → st.page_count ≤ N)

/-! ## Basic traversal lemmas -/

theorem crawlAux_expand_nil (cfg : Config) (w : World) (fuel : Nat) (st : CrawlState) :
    crawlAux cfg w fuel (CrawlTask.expand []) st = st := by
  cases fuel <;> rfl

theorem crawlAux_visited (cfg : Config) (w : World) (fuel : Nat) (url : String)
    (st : CrawlState) (h : url ∈ st.visited) :
    crawlAux cfg w fuel (CrawlTask.visit url) st = st := by
  cases fuel with
  | zero => rfl
  | succ n => simp [crawlAux, h]

theorem crawlAux_budget (cfg : Config) (w : World) (fuel : Nat) (url : String)
    (st : CrawlState) (h : budgetReached cfg st = true) :
    crawlAux cfg w fuel (CrawlTask.visit url) st = st := by
  cases fuel with
  | zero => rfl
  | succ n =>
    by_cases hv : url ∈ st.visited
    · simp [crawlAux, hv]
    · simp [crawlAux, hv, h]

/-- C1 (amended): when the fetch succeeds but the resolved content
region is missing or sparse, one `crawl` call only marks the URL
visited, bumps the counter, and records the fetch: no document is
appended and no link of the page is discovered or queued. -/
theorem sparse_skip_halts_discovery (cfg : Config) (w : World) (fuel : Nat) (url : String)
    (st : CrawlState) (soup : Soup) (h1 : url ∉ st.visited)
    (h2 : budgetReached cfg st = false) (h3 : w.fetch url = some soup)
    (h4 : sparseContent cfg soup = true) :
    crawlAux cfg w (fuel + 1) (CrawlTask.visit url) st = markFetched url st := by
  have hpp : processPage cfg w url (markFetched url st) = (markFetched url st, []) := by
    unfold processPage
    rw [h3]
    unfold sparseContent at h4
    cases hr : resolveContent cfg soup with
    | none => simp [hr]
    | some c =>
      rw [hr] at h4
      simp only [decide_eq_true_eq] at h4
      simp only [hr]
      rw [if_pos h4]
  simp [crawlAux, h1, h2, hpp, crawlAux_expand_nil]

/-- C1 witness: the amended theorem applied to the sparse-page world. -/
theorem sparse_skip_witness :
    crawlAux cfgDocs wSparse 10 (CrawlTask.visit "https://example.com/docs/") initState =
      markFetched "https://example.com/docs/" initState :=
  sparse_skip_halts_discovery cfgDocs wSparse 9 "https://example.com/docs/" initState
    soupSparse (by decide) (by decide) (by decide) (by decide)

/-- C1 counterexample: the start page is sparse and carries the
in-scope link `/docs/a` (which `extract_links` would have returned),
yet after the crawl that link was never queued, visited or fetched, and
no document exists — link discovery did not proceed. -/
theorem sparse_skip_counterexample :
    sparseContent cfgDocs soupSparse = true ∧
    soupSparse.hrefs = ["/docs/a"] ∧
    is_valid_link cfgDocs "/docs/a" = true ∧
    extract_links cfgDocs soupSparse "https://example.com/docs/"
      ["https://example.com/docs/"] = ["https://example.com/docs/a"] ∧
    runCrawl cfgDocs wSparse 10 =
      { visited := ["https://example.com/docs/"], docs := [], page_count := 1
        fetched := ["https://example.com/docs/"] } := by decide

/-- C5: corpus insertion order equals depth-first discovery order: with
page A linking to B then C and B linking to D, all fetches and
extractions succeeding, the corpus order is exactly A, B, D, C. -/
theorem dfs_corpus_order :
    (runCrawl cfgDocs wDFS 20).docs.map Doc.url =
      ["https://example.com/docs/", "https://example.com/docs/b",
       "https://example.com/docs/d", "https://example.com/docs/c"] := by decide

/-- C6: every href accepted by `is_valid_link` resolves (against the
configured base URL) to a URL on the configured origin's host whose
path starts with the start path or an additional seed path, and
matches the configured path pattern when one is present. -/
theorem in_scope_link_host_and_path (cfg : Config) (href : String)
    (h : is_valid_link cfg href = true) :
    (urlparse (urljoin cfg.base_url href)).netloc = (urlparse cfg.base_url).netloc ∧
    (strStartsWith (urlparse (urljoin cfg.base_url href)).path cfg.start_path = true ∨
      ∃ p ∈ cfg.additional_paths,
        strStartsWith (urlparse (urljoin cfg.base_url href)).path p = true) ∧
    (∀ rx, cfg.path_regex = some rx →
      rx (urlparse (urljoin cfg.base_url href)).path = true) := by
  unfold is_valid_link at h
  split at h
  · simp at h
  split at h
  · simp at h
  split at h
  · simp at h
  split at h
  · simp at h
  rename_i hne
  have hnet : (urlparse (urljoin cfg.base_url href)).netloc = (urlparse cfg.base_url).netloc := by
    by_contra hc
    exact hne hc
  refine ⟨hnet, ?_, ?_⟩
  · split at h
    · rename_i rx heq
      have hs := (Bool.and_eq_true _ _).mp h
      have h1 := hs.1
      simp only [scopePath, Bool.or_eq_true, List.any_eq_true] at h1
      exact h1
    · simp only [scopePath, Bool.or_eq_true, List.any_eq_true] at h
      exact h
  · intro rx hrx
    split at h
    · rename_i rx' heq
      rw [hrx] at heq
      cases heq
      exact ((Bool.and_eq_true _ _).mp h).2
    · rename_i heq
      rw [hrx] at heq
      cases heq

/-- C6 witness: the theorem applied to the scenario configuration and
the href `/docs/a`. -/
theorem in_scope_link_witness :
    (urlparse (urljoin cfgDocs.base_url "/docs/a")).netloc = (urlparse cfgDocs.base_url).netloc ∧
    (strStartsWith (urlparse (urljoin cfgDocs.base_url "/docs/a")).path cfgDocs.start_path = true ∨
      ∃ p ∈ cfgDocs.additional_paths,
        strStartsWith (urlparse (urljoin cfgDocs.base_url "/docs/a")).path p = true) ∧
    (∀ rx, cfgDocs.path_regex = some rx →
      rx (urlparse (urljoin cfgDocs.base_url "/docs/a")).path = true) :=
  in_scope_link_host_and_path cfgDocs "/docs/a" (by decide)

/-- C7: with origin `https://example.com` and start path `/docs/`, of
the five links on the scenario page exactly `/docs/a` and `/docs/b` are
accepted; the fragment, mailto and out-of-path links are rejected. -/
theorem five_link_scenario :
    is_valid_link cfgDocs "/docs/a" = true ∧
    is_valid_link cfgDocs "/docs/b" = true ∧
    is_valid_link cfgDocs "#section" = false ∧
    is_valid_link cfgDocs "mailto:x@y.com" = false ∧
    is_valid_link cfgDocs "/other/c" = false ∧
    extract_links cfgDocs soupFive "https://example.com/docs/" [] =
      ["https://example.com/docs/a", "https://example.com/docs/b"] := by decide

/-- C9: an href containing `mailto:` or `javascript:` anywhere — not
only as its scheme — is rejected by the Link Classifier, for every
configuration. -/
theorem scheme_substring_rejected (cfg : Config) (href : String)
    (h : containsStr href "mailto:" = true ∨ containsStr href "javascript:" = true) :
    is_valid_link cfg href = false := by
  have hc : (containsStr href "mailto:" || containsStr href "javascript:") = true := by
    rcases h with h | h <;> simp [h]
  unfold is_valid_link
  split
  · rfl
  · split
    · rfl
    · simp [hc]

/-- C9 witness: an href whose path merely contains `javascript:` as a
segment is classified out of scope. -/
theorem scheme_substring_witness :
    is_valid_link cfgDocs "/docs/javascript:run" = false :=
  scheme_substring_rejected cfgDocs "/docs/javascript:run" (Or.inr (by decide))

/-- C10: the classifier validates the href resolved against the
configured base URL while the crawl queues the href resolved against
the page URL; for the relative href `docs/x` on the page
`https://example.com/docs/sub/` the two resolutions differ, so the
queued URL is not the validated one. -/
theorem validated_vs_queued_url :
    is_valid_link cfgDocs "docs/x" = true ∧
    urljoin cfgDocs.base_url "docs/x" = "https://example.com/docs/x" ∧
    soupRel.hrefs = ["docs/x"] ∧
    extract_links cfgDocs soupRel "https://example.com/docs/sub/" [] =
      ["https://example.com/docs/sub/docs/x"] ∧
    "https://example.com/docs/sub/docs/x" ≠ "https://example.com/docs/x" := by decide

/-! ## The traversal invariant -/

theorem processPage_spec (cfg : Config) (w : World) (url : String) (st : CrawlState) :
    ∃ ds : List Doc,
      (processPage cfg w url st).1 = { st with docs := st.docs ++ ds } ∧
      (∀ d ∈ ds, d.url = url) ∧ ds.length ≤ 1 := by
  unfold processPage
  cases hf : w.fetch url with
  | none =>
    refine ⟨[], ?_, by simp, by simp⟩
    simp
  | some soup =>
    cases hr : resolveContent cfg soup with
    | none =>
      refine ⟨[], ?_, by simp, by simp⟩
      simp [hr]
    | some c =>
      by_cases hl : (pyStrip c).data.length < 100
      · refine ⟨[], ?_, by simp, by simp⟩
        simp only [hr]
        rw [if_pos hl]
        simp
      · refine ⟨[docOf w soup url c], ?_, ?_, by simp⟩
        · simp only [hr]
          rw [if_neg hl]
        · intro d hd
          simp only [List.mem_singleton] at hd
          subst hd
          rfl

theorem good_markFetched (cfg : Config) (url : String) (st : CrawlState)
    (h : Good cfg st) (hv : url ∉ st.visited) (hb : budgetReached cfg st = false) :
    Good cfg (markFetched url st) := by
  obtain ⟨hnd, hdnd, hfv, hdv, hdl, hfl, hbud⟩ := h
  have hnf : url ∉ st.fetched := fun hmem => hv (hfv url hmem)
  refine ⟨?_, ?_, ?_, ?_, ?_, ?_, ?_⟩
  · simp only [markFetched, List.nodup_append, List.nodup_cons, List.nodup_nil]
    refine ⟨hnd, by simp, ?_⟩
    intro a ha hb2
    simp only [List.mem_singleton] at hb2
    subst hb2
    exact hnf ha
  · exact hdnd
  · intro u hu
    simp only [markFetched, List.mem_append, List.mem_singleton] at hu
    rcases hu with hu | hu
    · exact List.mem_cons_of_mem _ (hfv u hu)
    · subst hu
      exact List.mem_cons_self _ _
  · intro u hu
    exact List.mem_cons_of_mem _ (hdv u hu)
  · simpa [markFetched] using Nat.le_succ_of_le hdl
  · simp only [markFetched, List.length_append, List.length_singleton]
    omega
  · intro N hN
    simp only [markFetched]
    have h1 := hbud N hN
    unfold budgetReached at hb
    rw [hN] at hb
    simp only [decide_eq_false_iff_not, Nat.not_le] at hb
    omega

theorem good_processPage (cfg : Config) (w : World) (url : String) (st : CrawlState)
    (h : Good cfg (markFetched url st)) (hv : url ∉ st.visited)
    (hdv0 : ∀ u ∈ st.docs.map Doc.url, u ∈ st.visited)
    (hdl0 : st.docs.length ≤ st.fetched.length) :
    Good cfg (processPage cfg w url (markFetched url st)).1 ∧
    (processPage cfg w url (markFetched url st)).1.visited = (markFetched url st).visited := by
  obtain ⟨ds, hst, hds, hlen⟩ := processPage_spec cfg w url (markFetched url st)
  obtain ⟨hnd, hdnd, hfv, hdv, hdl, hfl, hbud⟩ := h
  rw [hst]
  constructor
  · refine ⟨hnd, ?_, hfv, ?_, ?_, hfl, hbud⟩
    · simp only [List.map_append, List.nodup_append]
      refine ⟨by simpa [markFetched] using hdnd, ?_, ?_⟩
      · match ds, hlen with
        | [], _ => simp
        | [d], _ => simp
      · intro a ha hb2
        simp only [List.mem_map] at hb2
        obtain ⟨d, hd, hdu⟩ := hb2
        have := hds d hd
        rw [this] at hdu
        subst hdu
        simp only [markFetched] at ha
        exact hv (hdv0 _ ha)
    · intro u hu
      simp only [List.map_append, List.mem_append] at hu
      rcases hu with hu | hu
      · exact hdv u (by simpa [markFetched] using hu)
      · simp only [List.mem_map] at hu
        obtain ⟨d, hd, hdu⟩ := hu
        rw [hds d hd] at hdu
        subst hdu
        simp [markFetched]
    · simp only [List.length_append, List.length_singleton, markFetched]
      simp only [markFetched, List.length_append, List.length_singleton] at hdl hfl
      have := hdl0
      omega
  · rfl

theorem crawlAux_preserves (cfg : Config) (w : World) :
    ∀ (fuel : Nat) (t : CrawlTask) (st : CrawlState), Good cfg st →
      Good cfg (crawlAux cfg w fuel t st) ∧
      ∀ u ∈ st.visited, u ∈ (crawlAux cfg w fuel t st).visited := by
  intro fuel
  induction fuel with
  | zero => exact fun t st h => ⟨h, fun u hu => hu⟩
  | succ n ih =>
    intro t st h
    cases t with
    | visit url =>
      by_cases hv : url ∈ st.visited
      · rw [crawlAux_visited cfg w (n + 1) url st hv]
        exact ⟨h, fun u hu => hu⟩
      · by_cases hb : budgetReached cfg st = true
        · rw [crawlAux_budget cfg w (n + 1) url st hb]
          exact ⟨h, fun u hu => hu⟩
        · have hb2 : budgetReached cfg st = false := by
            cases hq : budgetReached cfg st
            · rfl
            · exact absurd hq hb
          have hg1 := good_markFetched cfg url st h hv hb2
          have hdv0 : ∀ u ∈ st.docs.map Doc.url, u ∈ st.visited := h.2.2.2.1
          have hdl0 : st.docs.length ≤ st.fetched.length := h.2.2.2.2.1
          have hg2 := good_processPage cfg w url st hg1 hv hdv0 hdl0
          have hrec := ih (CrawlTask.expand (processPage cfg w url (markFetched url st)).2)
            (processPage cfg w url (markFetched url st)).1 hg2.1
          have hshow : crawlAux cfg w (n + 1) (CrawlTask.visit url) st =
              crawlAux cfg w n (CrawlTask.expand (processPage cfg w url (markFetched url st)).2)
                (processPage cfg w url (markFetched url st)).1 := by
            simp [crawlAux, hv, hb2]
          rw [hshow]
          refine ⟨hrec.1, ?_⟩
          intro u hu
          apply hrec.2
          rw [hg2.2]
          exact List.mem_cons_of_mem _ hu
    | expand links =>
      cases links with
      | nil =>
        rw [crawlAux_expand_nil]
        exact ⟨h, fun u hu => hu⟩
      | cons l ls =>
        by_cases hb : budgetReached cfg st = true
        · have hshow : crawlAux cfg w (n + 1) (CrawlTask.expand (l :: ls)) st = st := by
            simp [crawlAux, hb]
          rw [hshow]
          exact ⟨h, fun u hu => hu⟩
        · have hb2 : budgetReached cfg st = false := by
            cases hq : budgetReached cfg st
            · rfl
            · exact absurd hq hb
          have h1 := ih (CrawlTask.visit l) st h
          have h2 := ih (CrawlTask.expand ls) (crawlAux cfg w n (CrawlTask.visit l) st) h1.1
          have hshow : crawlAux cfg w (n + 1) (CrawlTask.expand (l :: ls)) st =
              crawlAux cfg w n (CrawlTask.expand ls) (crawlAux cfg w n (CrawlTask.visit l) st) := by
            simp [crawlAux, hb2]
          rw [hshow]
          exact ⟨h2.1, fun u hu => h2.2 u (h1.2 u hu)⟩

theorem good_init (cfg : Config) : Good cfg initState := by
  refine ⟨?_, ?_, ?_, ?_, ?_, ?_, ?_⟩ <;> simp [initState, Good]

theorem foldl_crawl_good (cfg : Config) (w : World) (fuel : Nat) :
    ∀ (paths : List String) (st : CrawlState), Good cfg st →
      Good cfg (paths.foldl (fun st path =>
        let additional_url := urljoin cfg.base_url path
        if additional_url ∈ st.visited then st
        else crawlAux cfg w fuel (CrawlTask.visit additional_url) st) st) := by
  intro paths
  induction paths with
  | nil => exact fun st h => h
  | cons p ps ih =>
    intro st h
    simp only [List.foldl_cons]
    apply ih
    by_cases hv : urljoin cfg.base_url p ∈ st.visited
    · simpa [hv] using h
    · simpa [hv] using (crawlAux_preserves cfg w fuel (CrawlTask.visit (urljoin cfg.base_url p)) st h).1

theorem runCrawl_good (cfg : Config) (w : World) (fuel : Nat) :
    Good cfg (runCrawl cfg w fuel) := by
  unfold runCrawl
  exact foldl_crawl_good cfg w fuel cfg.additional_paths _
    (crawlAux_preserves cfg w fuel _ initState (good_init cfg)).1

/-- C3: a URL already in the visited set makes any later `crawl` call
on it a no-op; over a whole run no URL is fetched twice, every fetched
URL is in the visited set (it is marked before the fetch attempt), and
the corpus contains no duplicate URL. -/
theorem crawl_dedup_invariant :
    (∀ (cfg : Config) (w : World) (fuel : Nat) (url : String) (st : CrawlState),
        url ∈ st.visited → crawlAux cfg w fuel (CrawlTask.visit url) st = st) ∧
    (∀ (cfg : Config) (w : World) (fuel : Nat),
        (runCrawl cfg w fuel).fetched.Nodup ∧
        ((runCrawl cfg w fuel).docs.map Doc.url).Nodup ∧
        (∀ u ∈ (runCrawl cfg w fuel).fetched, u ∈ (runCrawl cfg w fuel).visited)) := by
  constructor
  · exact fun cfg w fuel url st h => crawlAux_visited cfg w fuel url st h
  · intro cfg w fuel
    obtain ⟨h1, h2, h3, _, _, _, _⟩ := runCrawl_good cfg w fuel
    exact ⟨h1, h2, h3⟩

/-- C3 witness: a second `crawl` call on an already-visited URL leaves
the state untouched, and a concrete run has duplicate-free fetch log
and corpus. -/
theorem crawl_dedup_witness :
    (crawlAux cfgDocs wEmpty 5 (CrawlTask.visit "https://example.com/docs/")
      { visited := ["https://example.com/docs/"], docs := [], page_count := 1
        fetched := ["https://example.com/docs/"] } =
      { visited := ["https://example.com/docs/"], docs := [], page_count := 1
        fetched := ["https://example.com/docs/"] }) ∧
    (runCrawl cfgDocs wDFS 20).fetched.Nodup :=
  ⟨crawl_dedup_invariant.1 cfgDocs wEmpty 5 "https://example.com/docs/" _ (by decide),
   (crawl_dedup_invariant.2 cfgDocs wDFS 20).1⟩

/-- C4: with a configured maximum page count N, at most N URLs are
passed to the fetcher and the corpus holds at most N documents; and a
`crawl` call made when the budget is already reached returns the state
unchanged — in particular without marking the URL visited. -/
theorem budget_bounds :
    (∀ (cfg : Config) (w : World) (fuel : Nat) (N : Nat), cfg.max_pages = some N →
        (runCrawl cfg w fuel).fetched.length ≤ N ∧ (runCrawl cfg w fuel).docs.length ≤ N) ∧
    (∀ (cfg : Config) (w : World) (fuel : Nat) (url : String) (st : CrawlState),
        budgetReached cfg st = true → crawlAux cfg w fuel (CrawlTask.visit url) st = st) := by
  constructor
  · intro cfg w fuel N hN
    obtain ⟨_, _, _, _, hd, hf, hb⟩ := runCrawl_good cfg w fuel
    have := hb N hN
    omega
  · exact fun cfg w fuel url st h => crawlAux_budget cfg w fuel url st h

/-- C4 witness: the budget-one configuration yields at most one fetch
and one document, and a call at an exhausted budget is the identity. -/
theorem budget_bounds_witness :
    ((runCrawl cfgBudget wDFS 10).fetched.length ≤ 1 ∧
      (runCrawl cfgBudget wDFS 10).docs.length ≤ 1) ∧
    crawlAux cfgBudget wDFS 3 (CrawlTask.visit "https://example.com/docs/b")
      { visited := ["https://example.com/docs/"], docs := [], page_count := 1
        fetched := ["https://example.com/docs/"] } =
      { visited := ["https://example.com/docs/"], docs := [], page_count := 1
        fetched := ["https://example.com/docs/"] } :=
  ⟨budget_bounds.1 cfgBudget wDFS 10 1 rfl,
   budget_bounds.2 cfgBudget wDFS 3 "https://example.com/docs/b" _ (by decide)⟩

/-! ## The run/writer control structure -/

/-- C2 counterexample: a rendering-mode run whose crawl raises tears
the engine down (the `finally` clause) but never executes the Corpus
Writer, which sits after the crawl inside the `try` body — the writer
is not unconditional at run end. -/
theorem writer_skipped_counterexample :
    (runTrace true false true [docExample]).written = false ∧
    (runTrace true false true [docExample]).driverQuit = true ∧
    (runTrace true false true [docExample]).raised = true := by decide

/-- C2 (amended): the Corpus Writer executes, writing the full ordered
document sequence, exactly when neither engine setup nor the crawl
raises; a crawl failure still tears the engine down without writing,
and a setup failure aborts before the `try` with neither teardown nor
write. -/
theorem writer_conditional_on_no_exception :
    ∀ (u s c : Bool) (docs : List Doc),
      (runTrace u s c docs).written = (!(u && s) && !c) ∧
      (runTrace u s c docs).driverQuit = (u && !s) ∧
      (runTrace u s c docs).raised = ((u && s) || c) ∧
      (runTrace u s c docs).output =
        (if (!(u && s) && !c) = true then some (dumpDocs docs) else none) := by
  intro u s c docs
  cases u <;> cases s <;> cases c <;> simp [runTrace]

/-! ## Round trip through the output artifact -/

theorem recordOf_docJson (d : Doc) : recordOf (docJson d) = some (d.url, d.title, d.content) := rfl

theorem recordsOf_map (docs : List Doc) :
    recordsOf (docs.map docJson) = some (docs.map (fun d => (d.url, d.title, d.content))) := by
  induction docs with
  | nil => rfl
  | cons d ds ih => simp [recordsOf, recordOf_docJson, ih]

theorem loadRecords_dumpDocs (docs : List Doc) :
    loadRecords (dumpDocs docs) = some (docs.map (fun d => (d.url, d.title, d.content))) := by
  unfold loadRecords dumpDocs
  exact recordsOf_map docs

theorem hexDigitVal_hexDigitChar (n : Nat) (h : n < 16) :
    hexDigitVal (hexDigitChar n) = some n := by
  interval_cases n <;> decide

theorem scanStringL_quote (rest : List Char) : scanStringL ('"' :: rest) = some ([], rest) := by
  rw [scanStringL.eq_def]
  simp

theorem scanStringL_plain (c : Char) (rest : List Char) (h1 : c ≠ '"')
    (h2 : ¬ c.toNat < 0x20) (h3 : c ≠ '\\') :
    scanStringL (c :: rest) =
      match scanStringL rest with
      | some (s, r) => some (c :: s, r)
      | none => none := by
  rw [scanStringL.eq_def]
  simp [h1, h2, h3]

theorem scanStringL_esc (e ce : Char) (rest : List Char) (he : e ≠ 'u')
    (hu : unescCharOf e = some ce) :
    scanStringL ('\\' :: e :: rest) =
      match scanStringL rest with
      | some (s, r) => some (ce :: s, r)
      | none => none := by
  rw [scanStringL.eq_def]
  simp [he, hu]

theorem scanStringL_escu (a b c2 d : Char) (rest : List Char) (x y z t2 : Nat)
    (ha : hexDigitVal a = some x) (hb : hexDigitVal b = some y)
    (hc : hexDigitVal c2 = some z) (hd : hexDigitVal d = some t2) :
    scanStringL ('\\' :: 'u' :: a :: b :: c2 :: d :: rest) =
      match scanStringL rest with
      | some (s, r) => some (Char.ofNat (((x * 16 + y) * 16 + z) * 16 + t2) :: s, r)
      | none => none := by
  simp [scanStringL, ha, hb, hc, hd]

theorem scanStringL_escape (l : List Char) :
    ∀ rest, scanStringL (escapeList l ++ '"' :: rest) = some (l, rest) := by
  induction l with
  | nil => intro rest; simpa using scanStringL_quote rest
  | cons c l ih =>
    intro rest
    rw [show escapeList (c :: l) = escCharL c ++ escapeList l from rfl, List.append_assoc]
    by_cases hbs : c = '\\'
    · subst hbs
      rw [show escCharL '\\' = ['\\', '\\'] from rfl]
      simp only [List.cons_append, List.nil_append]
      rw [scanStringL_esc '\\' '\\' _ (by decide) (by decide), ih rest]
    · by_cases hq : c = '"'
      · subst hq
        rw [show escCharL '"' = ['\\', '"'] from rfl]
        simp only [List.cons_append, List.nil_append]
        rw [scanStringL_esc '"' '"' _ (by decide) (by decide), ih rest]
      · by_cases hb8 : c = '\x08'
        · subst hb8
          rw [show escCharL '\x08' = ['\\', 'b'] from rfl]
          simp only [List.cons_append, List.nil_append]
          rw [scanStringL_esc 'b' '\x08' _ (by decide) (by decide), ih rest]
        · by_cases hf : c = '\x0c'
          · subst hf
            rw [show escCharL '\x0c' = ['\\', 'f'] from rfl]
            simp only [List.cons_append, List.nil_append]
            rw [scanStringL_esc 'f' '\x0c' _ (by decide) (by decide), ih rest]
          · by_cases hn : c = '\n'
            · subst hn
              rw [show escCharL '\n' = ['\\', 'n'] from rfl]
              simp only [List.cons_append, List.nil_append]
              rw [scanStringL_esc 'n' '\n' _ (by decide) (by decide), ih rest]
            · by_cases hcr : c = '\r'
              · subst hcr
                rw [show escCharL '\r' = ['\\', 'r'] from rfl]
                simp only [List.cons_append, List.nil_append]
                rw [scanStringL_esc 'r' '\r' _ (by decide) (by decide), ih rest]
              · by_cases ht : c = '\t'
                · subst ht
                  rw [show escCharL '\t' = ['\\', 't'] from rfl]
                  simp only [List.cons_append, List.nil_append]
                  rw [scanStringL_esc 't' '\t' _ (by decide) (by decide), ih rest]
                · by_cases hctl : c.toNat < 0x20
                  · rw [show escCharL c =
                        ['\\', 'u', '0', '0', hexDigitChar (c.toNat / 16),
                          hexDigitChar (c.toNat % 16)] from by
                      simp [escCharL, hbs, hq, hb8, hf, hn, hcr, ht, hctl]]
                    simp only [List.cons_append, List.nil_append]
                    rw [scanStringL_escu '0' '0' (hexDigitChar (c.toNat / 16))
                        (hexDigitChar (c.toNat % 16)) _ 0 0 (c.toNat / 16) (c.toNat % 16)
                        (by decide) (by decide)
                        (hexDigitVal_hexDigitChar _ (by omega))
                        (hexDigitVal_hexDigitChar _ (by omega)),
                      ih rest]
                    rw [show ((0 * 16 + 0) * 16 + c.toNat / 16) * 16 + c.toNat % 16 = c.toNat
                        from by omega]
                    rw [Char.ofNat_toNat]
                  · rw [show escCharL c = [c] from by
                        simp [escCharL, hbs, hq, hb8, hf, hn, hcr, ht, hctl]]
                    simp only [List.cons_append, List.nil_append]
                    rw [scanStringL_plain c _ hq hctl hbs, ih rest]

theorem pyJson_round_trip (s : String) : pyJsonUnquote (pyJsonQuote s) = some s := by
  have h := scanStringL_escape s.data []
  rw [show pyJsonQuote s = String.mk ('"' :: (escapeList s.data ++ ['"'])) from rfl]
  unfold pyJsonUnquote
  rw [show (String.mk ('"' :: (escapeList s.data ++ ['"']))).data
      = '"' :: (escapeList s.data ++ ['"']) from rfl]
  simp only []
  rw [show (escapeList s.data ++ ['"']) = escapeList s.data ++ '"' :: [] from rfl, h]

/-- C8: reloading the written artifact recovers every record's `url`,
`title` and `content` exactly; the string encoding of the writer
(`ensure_ascii=False`) round-trips through the loader's string scanner,
and every character at or above `0x20` other than the quote and the
backslash — all non-ASCII text in particular — is written literally,
unescaped. -/
theorem corpus_round_trip :
    (∀ docs : List Doc, loadRecords (dumpDocs docs) =
      some (docs.map (fun d => (d.url, d.title, d.content)))) ∧
    (∀ s : String, pyJsonUnquote (pyJsonQuote s) = some s) ∧
    (∀ c : Char, 0x20 ≤ c.toNat → c ≠ '"' → c ≠ '\\' → escCharL c = [c]) := by
  refine ⟨loadRecords_dumpDocs, pyJson_round_trip, ?_⟩
  intro c h1 h2 h3
  have hb8 : c ≠ '\x08' := by intro h; subst h; exact absurd h1 (by decide)
  have hf : c ≠ '\x0c' := by intro h; subst h; exact absurd h1 (by decide)
  have hn : c ≠ '\n' := by intro h; subst h; exact absurd h1 (by decide)
  have hcr : c ≠ '\r' := by intro h; subst h; exact absurd h1 (by decide)
  have ht : c ≠ '\t' := by intro h; subst h; exact absurd h1 (by decide)
  have hctl : ¬ c.toNat < 0x20 := by omega
  simp [escCharL, h2, h3, hb8, hf, hn, hcr, ht, hctl]

/-- C8 witness: a concrete record survives the round trip, a string of
non-ASCII text round-trips, and a non-ASCII character is written
unescaped. -/
theorem corpus_round_trip_witness :
    loadRecords (dumpDocs [docExample]) = some [("u", "t", "c")] ∧
    pyJsonUnquote (pyJsonQuote "日本語テキスト") = some "日本語テキスト" ∧
    escCharL 'é' = ['é'] :=
  ⟨corpus_round_trip.1 [docExample], corpus_round_trip.2.1 "日本語テキスト",
   corpus_round_trip.2.2 'é' (by decide) (by decide) (by decide)⟩

/-- Sanity of the URL model: the resolutions the scenario claims rely
on, evaluated on concrete inputs. -/
theorem urljoin_model_sanity :
    urljoin "https://example.com" "/docs/a" = "https://example.com/docs/a" ∧
    urljoin "https://example.com" "docs/x" = "https://example.com/docs/x" ∧
    urljoin "https://example.com/docs/sub/" "docs/x" = "https://example.com/docs/sub/docs/x" ∧
    urljoin "https://example.com/a/b/" "../c" = "https://example.com/a/c" ∧
    (urlparse "https://example.com/docs/a").netloc = "example.com" ∧
    (urlparse "https://example.com/d?q=1#f").path = "/d" := by decide
